import Mathlib

/-!
Verification development for the multi-vendor messaging connection manager
(three TypeScript variants of one Express application: a port allocator over a
fixed range, an in-memory vendor registry, a JSON persistence store, provider
lifecycle event handlers, a periodic retry sweep and a QR-refresh timer).

The definitions below are a shallow embedding of the source:
- JS `Set<number>` is a duplicate-free `List Nat` with `setAdd` / `setDelete`;
- JS `Map<string, Vendor>` is a `List Vendor` keyed by `id` with
  `findVendorIn` / `setVendor` / `modifyVendor` / `eraseVendor` mirroring
  `get` / `set` (replace-or-append) / in-place field mutation / `delete`;
- the on-disk `vendors.json` is a `Json` AST value (what `JSON.stringify`
  produced); `JSON.stringify` dropping `undefined`-valued keys is modelled by
  omitting those fields from the object;
- the opaque provider instance attached to a vendor is represented by its
  generation number `gen`: every `createProvider`/`setupProvider` call yields a
  fresh generation, so `gen` identifies which provider adapter a vendor holds;
- the per-subscription `qrRefreshInterval` handles are modelled as the set
  `qrTimers` of vendor ids that currently have an active refresh interval;
- `Date` timestamps are `Nat`; `new Date()` is an explicit `now` argument;
- `provider.sendText` outcomes are an oracle `Vendor → Except String Unit`.

Where the two variants in part_000 differ (persisted fields, DELETE handler,
vendor listing, cleanup), both are embedded with `V1` / `V2` suffixes; the
lifecycle event handlers follow the fuller `setupProviderEvents` variant.
-/

/-- Constants from the source (BASE_PORT defaults to 3008 when the PORT
environment variable is absent). -/
def BASE_PORT : Nat := 3008

def API_PORT : Nat := BASE_PORT + 1

def VENDOR_BASE_PORT : Nat := BASE_PORT + 100

def MAX_CONCURRENT_CONNECTIONS : Nat := 70

def PORT_RANGE_START : Nat := VENDOR_BASE_PORT

def PORT_RANGE_END : Nat := VENDOR_BASE_PORT + MAX_CONCURRENT_CONNECTIONS

/-- JS `Set.add`: insert if absent (sets never hold duplicates). -/
def setAdd (used : List Nat) (p : Nat) : List Nat :=
  if p ∈ used then used else used ++ [p]

/-- JS `Set.delete` on a duplicate-free list. -/
def setDelete (used : List Nat) (p : Nat) : List Nat :=
  used.filter (fun q => decide (q ≠ p))

/-- The `for (let port = PORT_RANGE_START; port <= PORT_RANGE_END; port++)`
loop of `getAvailablePort`, with the remaining iteration count explicit. -/
def scanPorts (used : List Nat) : Nat → Nat → Option Nat
  | _, 0 => none
  | p, fuel + 1 => if p ∈ used then scanPorts used (p + 1) fuel else some p

/-- `getAvailablePort`: first free port in the range, reserving it; `none`
models the `throw new Error('No ports available')` path. -/
def getAvailablePort (used : List Nat) : Option (Nat × List Nat) :=
  match scanPorts used PORT_RANGE_START (PORT_RANGE_END + 1 - PORT_RANGE_START) with
  | some p => some (p, setAdd used p)
  | none => none

/-- The ports the allocator loop visits: `[PORT_RANGE_START, PORT_RANGE_END]`. -/
def portRange : List Nat :=
  List.range' PORT_RANGE_START (PORT_RANGE_END + 1 - PORT_RANGE_START)

/-- An abstract acquire/release history against the allocator. -/
inductive AllocOp where
  | acquire
  | release (p : Nat)

/-- One allocator operation: `acquire` is `getAvailablePort` (a failed acquire
leaves the pool unchanged), `release` is `usedPorts.delete` as performed by
`cleanupVendor`. -/
def allocStep (used : List Nat) : AllocOp → List Nat
  | AllocOp.acquire =>
    match getAvailablePort used with
    | some (_, used1) => used1
    | none => used
  | AllocOp.release p => setDelete used p

/-- Run an acquire/release history from the initial empty pool. -/
def runAlloc (ops : List AllocOp) : List Nat := ops.foldl allocStep []

/-- Vendor lifecycle status. -/
inductive VStatus where
  | pending
  | connected
  | disconnected
deriving DecidableEq

/-- One vendor record of the in-memory registry.  `gen` stands for the opaque
`provider` handle: each `createProvider` call in the source is modelled as a
fresh generation number. -/
structure Vendor where
  id : String
  name : String
  phoneNumber : String
  assignedNumber : Option String
  status : VStatus
  qr : Option String
  lastConnection : Option Nat
  reconnectAttempts : Nat
  port : Nat
  gen : Nat
deriving DecidableEq

/-- The connection metrics object. -/
structure ConnectionMetrics where
  totalConnections : Int
  activeConnections : Nat
  pendingConnections : Nat
  failedConnections : Nat
deriving DecidableEq

/-- JSON values as produced by `JSON.stringify` on the vendor snapshot
(no `null`/boolean cases are ever produced by the snapshot writers, and
`undefined`-valued keys are dropped rather than written). -/
inductive Json where
  | str (s : String)
  | num (n : Nat)
  | arr (elems : List Json)
  | obj (fields : List (String × Json))

/-- Status serialization used in the persisted file. -/
def statusToStr : VStatus → String
  | VStatus.pending => "pending"
  | VStatus.connected => "connected"
  | VStatus.disconnected => "disconnected"

/-- Status parsing for the persisted file. -/
def strToStatus : String → Option VStatus
  | "pending" => some VStatus.pending
  | "connected" => some VStatus.connected
  | "disconnected" => some VStatus.disconnected
  | _ => none

/-- One vendor object as written by `saveVendorsToFile` in the second variant:
`{id, name, phoneNumber, assignedNumber, status, lastConnection, port}` (the
optional fields are omitted when `undefined`, as `JSON.stringify` does). -/
def encodeVendorV2 (v : Vendor) : Json :=
  Json.obj
    ([("id", Json.str v.id), ("name", Json.str v.name),
      ("phoneNumber", Json.str v.phoneNumber)]
     ++ (match v.assignedNumber with
         | some a => [("assignedNumber", Json.str a)]
         | none => [])
     ++ [("status", Json.str (statusToStr v.status))]
     ++ (match v.lastConnection with
         | some t => [("lastConnection", Json.num t)]
         | none => [])
     ++ [("port", Json.num v.port)])

/-- One vendor object as written by `saveVendorsToFile` in the first variant:
`{id, name, phoneNumber, assignedNumber, status, lastConnection}` — no `port`
key. -/
def encodeVendorV1 (v : Vendor) : Json :=
  Json.obj
    ([("id", Json.str v.id), ("name", Json.str v.name),
      ("phoneNumber", Json.str v.phoneNumber)]
     ++ (match v.assignedNumber with
         | some a => [("assignedNumber", Json.str a)]
         | none => [])
     ++ [("status", Json.str (statusToStr v.status))]
     ++ (match v.lastConnection with
         | some t => [("lastConnection", Json.num t)]
         | none => []))

/-- The whole file content written by the variant-2 snapshot. -/
def snapshotV2 (l : List Vendor) : Json := Json.arr (l.map encodeVendorV2)

/-- The whole file content written by the variant-1 snapshot. -/
def snapshotV1 (l : List Vendor) : Json := Json.arr (l.map encodeVendorV1)

/-- A vendor record as read back from the persisted file.  `port` is optional
because the variant-1 writer never emits it. -/
structure PersistedVendor where
  id : String
  name : String
  phoneNumber : String
  assignedNumber : Option String
  status : VStatus
  lastConnection : Option Nat
  port : Option Nat
deriving DecidableEq

/-- Projection of an in-memory vendor onto the seven persisted fields of the
variant-2 snapshot (this is also the field list the specification gives). -/
def persistedOfVendorV2 (v : Vendor) : PersistedVendor :=
  { id := v.id, name := v.name, phoneNumber := v.phoneNumber,
    assignedNumber := v.assignedNumber, status := v.status,
    lastConnection := v.lastConnection, port := some v.port }

/-- Projection of an in-memory vendor onto the six fields the variant-1
snapshot writes (no port). -/
def persistedOfVendorV1 (v : Vendor) : PersistedVendor :=
  { id := v.id, name := v.name, phoneNumber := v.phoneNumber,
    assignedNumber := v.assignedNumber, status := v.status,
    lastConnection := v.lastConnection, port := none }

/-- Read a string-valued field. -/
def jStr : Option Json → Option String
  | some (Json.str s) => some s
  | _ => none

/-- Read a numeric field. -/
def jNum : Option Json → Option Nat
  | some (Json.num n) => some n
  | _ => none

/-- Decode one persisted vendor object (field access on the parsed JSON). -/
def decodeVendorJson (j : Json) : Option PersistedVendor :=
  match j with
  | Json.obj fs =>
    match jStr (List.lookup "id" fs), jStr (List.lookup "name" fs),
          jStr (List.lookup "phoneNumber" fs), jStr (List.lookup "status" fs) with
    | some id, some name, some phone, some st =>
      match strToStatus st with
      | some status =>
        some { id := id, name := name, phoneNumber := phone,
               assignedNumber := jStr (List.lookup "assignedNumber" fs),
               status := status,
               lastConnection := jNum (List.lookup "lastConnection" fs),
               port := jNum (List.lookup "port" fs) }
      | none => none
    | _, _, _, _ => none
  | _ => none

/-- Decode every element of the persisted array. -/
def decodeAll : List Json → Option (List PersistedVendor)
  | [] => some []
  | j :: rest =>
    match decodeVendorJson j, decodeAll rest with
    | some v, some vs => some (v :: vs)
    | _, _ => none

/-- `loadVendorsFromFile`: a missing or unreadable file yields the empty
list (the catch branch); otherwise the parsed array. -/
def loadFile : Option Json → List PersistedVendor
  | none => []
  | some (Json.arr xs) => (decodeAll xs).getD []
  | some _ => []

/-- The whole mutable state of the process: registry, port pool, metrics
object, on-disk file, active QR-refresh intervals and the next fresh provider
generation. -/
structure SysState where
  vendors : List Vendor
  usedPorts : List Nat
  totalConnections : Int
  activeConnections : Nat
  pendingConnections : Nat
  failedConnections : Nat
  file : Option Json
  qrTimers : List String
  nextGen : Nat

/-- Fresh process state: empty registry and pool, all metrics zero, no file. -/
def initState : SysState :=
  { vendors := [], usedPorts := [], totalConnections := 0,
    activeConnections := 0, pendingConnections := 0, failedConnections := 0,
    file := none, qrTimers := [], nextGen := 0 }

/-- `vendors.get(id)` on the keyed list. -/
def findVendorIn : List Vendor → String → Option Vendor
  | [], _ => none
  | v :: rest, id => if v.id = id then some v else findVendorIn rest id

/-- `vendors.get(id)` on the whole state. -/
def findVendor (s : SysState) (id : String) : Option Vendor :=
  findVendorIn s.vendors id

/-- `vendors.set(id, v)`: replace the entry with that key, else append. -/
def setVendor : List Vendor → Vendor → List Vendor
  | [], v => [v]
  | w :: rest, v => if w.id = v.id then v :: rest else w :: setVendor rest v

/-- In-place mutation of the fields of the vendor stored under `id`. -/
def modifyVendor : List Vendor → String → (Vendor → Vendor) → List Vendor
  | [], _, _ => []
  | w :: rest, id, f => if w.id = id then f w :: rest else w :: modifyVendor rest id f

/-- `vendors.delete(id)`. -/
def eraseVendor : List Vendor → String → List Vendor
  | [], _ => []
  | w :: rest, id => if w.id = id then rest else w :: eraseVendor rest id

/-- `clearInterval(qrRefreshInterval)` for the subscription owned by `id`. -/
def clearTimer (s : SysState) (id : String) : SysState :=
  { s with qrTimers := s.qrTimers.filter (fun t => decide (t ≠ id)) }

/-- `setInterval(...)` registering the QR refresh interval for `id`. -/
def addTimer (ts : List String) (id : String) : List String :=
  if id ∈ ts then ts else ts ++ [id]

/-- `updateMetrics()`: recompute active and pending counts from the registry;
`totalConnections` and `failedConnections` are not touched. -/
def updateMetrics (s : SysState) : SysState :=
  { s with
    activeConnections :=
      (s.vendors.filter (fun v => decide (v.status = VStatus.connected))).length,
    pendingConnections :=
      (s.vendors.filter (fun v => decide (v.status = VStatus.pending))).length }

/-- `saveVendorsToFile()` of the second variant: overwrite the file with the
seven-field snapshot of every registered vendor. -/
def saveV2 (s : SysState) : SysState :=
  { s with file := some (snapshotV2 s.vendors) }

/-- `saveVendorsToFile()` of the first variant: overwrite the file with the
six-field snapshot (no port). -/
def saveV1 (s : SysState) : SysState :=
  { s with file := some (snapshotV1 s.vendors) }

/-- `cleanupVendor` of the first variant: if the vendor exists, drop it from
the registry, release its port and decrement the total counter; absent vendors
are left untouched. -/
def cleanupVendorV1 (s : SysState) (id : String) : SysState :=
  match findVendor s id with
  | none => s
  | some v =>
    updateMetrics
      { s with vendors := eraseVendor s.vendors id,
               usedPorts := setDelete s.usedPorts v.port,
               totalConnections := s.totalConnections - 1 }

/-- `cleanupVendor` of the second variant: additionally terminates the socket
(no registry effect) and rewrites the persisted file. -/
def cleanupVendorV2 (s : SysState) (id : String) : SysState :=
  match findVendor s id with
  | none => s
  | some v =>
    saveV2 (updateMetrics
      { s with vendors := eraseVendor s.vendors id,
               usedPorts := setDelete s.usedPorts v.port,
               totalConnections := s.totalConnections - 1 })

/-- Shared shape of the vendor-mutating event handlers: mutate the stored
record's fields in place, recompute metrics, persist. -/
def applyVendorChange (s : SysState) (id : String) (f : Vendor → Vendor) : SysState :=
  saveV2 (updateMetrics { s with vendors := modifyVendor s.vendors id f })

/-- Register the QR refresh interval for `id` (the `setInterval` call). -/
def withTimer (s : SysState) (id : String) : SysState :=
  { s with qrTimers := addTimer s.qrTimers id }

/-- The `provider.on('qr', ...)` handler: store the code, mark the vendor
pending, persist, and (re)start the QR-refresh interval.  The interval is
registered even when the vendor is no longer present, exactly as in the
source, where only the field updates sit behind the `if (vendor)` guard. -/
def qrEventStep (s : SysState) (id code : String) : SysState :=
  match findVendor s id with
  | none => withTimer s id
  | some _ =>
    withTimer
      (applyVendorChange s id
        (fun v => { v with qr := some code, status := VStatus.pending })) id

/-- The `provider.on('ready', phoneNumber)` handler of `setupProviderEvents`:
cancel the refresh interval; if the vendor is still registered, mark it
connected with the provider-confirmed identity, clear the pairing code, stamp
`lastConnection`, reset `reconnectAttempts`, recompute metrics and persist.
The handler never compares the confirmed identity with `assignedNumber`
(the variant-1 handler only logs a warning on mismatch, after the same
transition). -/
def readyEvent (s : SysState) (id confirmed : String) (now : Nat) : SysState :=
  match findVendorIn (clearTimer s id).vendors id with
  | none => clearTimer s id
  | some _ =>
    applyVendorChange (clearTimer s id) id
      (fun v => { v with status := VStatus.connected, phoneNumber := confirmed,
                         qr := none, lastConnection := some now,
                         reconnectAttempts := 0 })

/-- The `provider.on('disconnect', ...)` handler: cancel the refresh interval
and mark the vendor disconnected (it stays registered for the retry sweep). -/
def disconnectEvent (s : SysState) (id : String) : SysState :=
  match findVendorIn (clearTimer s id).vendors id with
  | none => clearTimer s id
  | some _ =>
    applyVendorChange (clearTimer s id) id
      (fun v => { v with status := VStatus.disconnected })

/-- The in-place status flip to disconnected followed by the metrics
recomputation, as performed inside the connection-failure handler before it
delegates to cleanup (which itself persists). -/
def markDisconnectedNoSave (s : SysState) (id : String) : SysState :=
  updateMetrics
    { s with vendors := modifyVendor s.vendors id (fun v => { v with status := VStatus.disconnected }) }

/-- The `provider.on('connection.failure', ...)` handler: cancel the refresh
interval; if the vendor is still registered, mark it disconnected and then run
full cleanup (registry removal plus port release). -/
def connFailureEvent (s : SysState) (id : String) : SysState :=
  match findVendorIn (clearTimer s id).vendors id with
  | none => clearTimer s id
  | some _ =>
    cleanupVendorV2 (markDisconnectedNoSave (clearTimer s id) id) id

/-- The body of the QR-refresh interval callback, fired while the vendor is
still registered (the callback closes over the vendor record; we evaluate it
with the current record, which is what the closure holds the first time the
interval fires): run `cleanupVendor`, build a fresh provider (`setupProvider`,
modelled as a fresh generation) and re-insert the vendor, pending, on its old
port.  Note the port released by the cleanup is never re-reserved. -/
def qrRefreshStep (s : SysState) (id : String) : SysState :=
  match findVendor s id with
  | none => s
  | some v =>
    let s1 := cleanupVendorV2 s id
    let vs := setVendor s1.vendors { v with gen := s1.nextGen, status := VStatus.pending }
    { s1 with vendors := vs, nextGen := s1.nextGen + 1 }

/-- Outcome of `POST /vendors/register`. -/
inductive RegisterResult where
  | ok (vendorId : String) (port : Nat)
  | atCapacity
  | missingFields
  | alreadyRegistered
  | initError
deriving DecidableEq

/-- The body of the registration try-block once admission checks passed:
acquire a port (`none` is the thrown `No ports available`, answered as an
initialization error and leaving the state unchanged), create the vendor
record pending with a fresh provider, bump the total counter, recompute
metrics and persist. -/
def registerFresh (s : SysState) (id name phone : String) : SysState × RegisterResult :=
  match getAvailablePort s.usedPorts with
  | none => (s, RegisterResult.initError)
  | some (port, used) =>
    let v : Vendor :=
      { id := id, name := name, phoneNumber := "", assignedNumber := some phone,
        status := VStatus.pending, qr := none, lastConnection := none,
        reconnectAttempts := 0, port := port, gen := s.nextGen }
    let s1 := { s with vendors := setVendor s.vendors v, usedPorts := used,
                       totalConnections := s.totalConnections + 1,
                       nextGen := s.nextGen + 1 }
    (saveV2 (updateMetrics s1), RegisterResult.ok id port)

/-- `POST /vendors/register`: the capacity check (`vendors.size >=
MAX_CONCURRENT_CONNECTIONS`, inline in variant 2 and as
`connectionLimitMiddleware` in variant 1) answers 429 before anything else;
then body validation, then the duplicate-identity check against the persisted
file (`find` takes the first record with that `assignedNumber`). -/
def registerVendor (s : SysState) (id name phone : String) : SysState × RegisterResult :=
  if s.vendors.length ≥ MAX_CONCURRENT_CONNECTIONS then
    (s, RegisterResult.atCapacity)
  else if name = "" ∨ phone = "" then
    (s, RegisterResult.missingFields)
  else
    match (loadFile s.file).find? (fun p => decide (p.assignedNumber = some phone)) with
    | some existing =>
      if existing.status ≠ VStatus.disconnected then (s, RegisterResult.alreadyRegistered)
      else registerFresh s id name phone
    | none => registerFresh s id name phone

/-- Outcome of `DELETE /vendors/:id`. -/
inductive DeleteResult where
  | ok
  | notFound
deriving DecidableEq

/-- Variant-1 `DELETE /vendors/:id`: unconditionally `cleanupVendor(id)` and
answer `{success: true}` — also when the vendor does not exist. -/
def deleteVendorV1 (s : SysState) (id : String) : SysState × DeleteResult :=
  (cleanupVendorV1 s id, DeleteResult.ok)

/-- Variant-2 `DELETE /vendors/:id`: 404 when the vendor is absent, otherwise
cleanup followed by a save. -/
def deleteVendorV2 (s : SysState) (id : String) : SysState × DeleteResult :=
  match findVendor s id with
  | none => (s, DeleteResult.notFound)
  | some _ => (saveV2 (cleanupVendorV2 s id), DeleteResult.ok)

/-- Outcome of `PUT /vendors/:id`. -/
inductive UpdateResult where
  | ok
  | notFound
  | phoneRejected
deriving DecidableEq

/-- The `PUT /vendors/:id` guard `phoneNumber && phoneNumber !==
vendor.assignedNumber` (JS truthiness: an absent or empty phone number skips
the check). -/
def rejectPut (phone : Option String) (v : Vendor) : Bool :=
  match phone with
  | some p => decide (p ≠ "" ∧ v.assignedNumber ≠ some p)
  | none => false

/-- The `name || vendor.name` fallback of the PUT handler. -/
def updName (name : Option String) (v : Vendor) : String :=
  match name with
  | some n => if n = "" then v.name else n
  | none => v.name

/-- `PUT /vendors/:id`: only the display name may change; a non-empty phone
number differing from `assignedNumber` is rejected. -/
def updateVendorPut (s : SysState) (id : String) (name phone : Option String) :
    SysState × UpdateResult :=
  match findVendor s id with
  | none => (s, UpdateResult.notFound)
  | some v =>
    if rejectPut phone v then (s, UpdateResult.phoneRejected)
    else
      (saveV2 { s with vendors := setVendor s.vendors { v with name := updName name v } },
       UpdateResult.ok)

/-- The in-place update a sweep iteration applies to an eligible vendor:
increment `reconnectAttempts` and move back to `pending` (all other fields,
in particular the provider generation, are untouched). -/
def bumpVendor (v : Vendor) : Vendor :=
  { v with reconnectAttempts := v.reconnectAttempts + 1, status := VStatus.pending }

/-- Sweep eligibility: `v.status === 'disconnected' && v.reconnectAttempts < 3`. -/
def sweepEligible (v : Vendor) : Bool :=
  decide (v.status = VStatus.disconnected ∧ v.reconnectAttempts < 3)

/-- The `for (const vendor of disconnectedVendors)` loop of the retry sweep:
each iteration mutates one vendor, recomputes metrics and (in variant 2)
persists. -/
def sweepRun : SysState → List Vendor → SysState
  | st, [] => st
  | st, v :: rest =>
    sweepRun
      (saveV2 (updateMetrics
        { st with vendors := modifyVendor st.vendors v.id bumpVendor })) rest

/-- The 5-minute retry sweep of variant 2: snapshot the eligible vendors, then
iterate. -/
def retrySweepV2 (s : SysState) : SysState :=
  sweepRun s (s.vendors.filter sweepEligible)

/-- One entry of the broadcast result list. -/
structure SendOutcome where
  vendorId : String
  success : Bool
  error : Option String
deriving DecidableEq

/-- Per-vendor outcome of one `sendText` attempt inside broadcast. -/
def sendResult (send : Vendor → Except String Unit) (v : Vendor) : SendOutcome :=
  match send v with
  | Except.ok _ => { vendorId := v.id, success := true, error := none }
  | Except.error e => { vendorId := v.id, success := false, error := some e }

/-- The `for (const [id, vendor] of vendors)` loop of
`POST /messages/broadcast`: connected vendors get a send attempt whose
outcome (the catch branch included) is pushed onto the accumulating result
list; other vendors are skipped. -/
def broadcastRun (send : Vendor → Except String Unit) :
    List SendOutcome → List Vendor → List SendOutcome
  | results, [] => results
  | results, v :: rest =>
    if v.status = VStatus.connected then
      broadcastRun send (results ++ [sendResult send v]) rest
    else
      broadcastRun send results rest

/-- `POST /messages/broadcast` over the registry, given a delivery oracle. -/
def broadcastMessages (s : SysState) (send : Vendor → Except String Unit) :
    List SendOutcome :=
  broadcastRun send [] s.vendors

/-- Lookup in a persisted-record list by id (`find` / `findIndex` by id). -/
def findRecord : List PersistedVendor → String → Option PersistedVendor
  | [], _ => none
  | p :: rest, k => if p.id = k then some p else findRecord rest k

/-- `allVendors[index] = active`: replace the first record with the same id. -/
def replaceRecord : List PersistedVendor → PersistedVendor → List PersistedVendor
  | [], _ => []
  | p :: rest, a => if p.id = a.id then a :: rest else p :: replaceRecord rest a

/-- One iteration of the merge loop of the variant-2 `GET /vendors/`:
overwrite the stored record with the in-memory one on id collision, else
append. -/
def mergeStep (acc : List PersistedVendor) (a : PersistedVendor) : List PersistedVendor :=
  match findRecord acc a.id with
  | some _ => replaceRecord acc a
  | none => acc ++ [a]

/-- The `activeVendors.forEach(...)` merge loop. -/
def mergeVendors : List PersistedVendor → List PersistedVendor → List PersistedVendor
  | stored, [] => stored
  | stored, a :: rest => mergeVendors (mergeStep stored a) rest

/-- Variant-2 `GET /vendors/`: persisted records merged with the in-memory
registry, in-memory data taking precedence. -/
def listVendorsV2 (s : SysState) : List PersistedVendor :=
  mergeVendors (loadFile s.file) (s.vendors.map persistedOfVendorV2)

/-- Variant-1 `GET /vendors`: the persisted file only. -/
def listVendorsV1 (s : SysState) : List PersistedVendor :=
  loadFile s.file

/-- The metrics object as reported by `GET /health`. -/
def healthMetrics (s : SysState) : ConnectionMetrics :=
  { totalConnections := s.totalConnections,
    activeConnections := s.activeConnections,
    pendingConnections := s.pendingConnections,
    failedConnections := s.failedConnections }

/-- Every state-mutating entry point of the coordinator: API calls, provider
event callbacks and the two timers. -/
inductive Op where
  | register (id name phone : String)
  | qrIssued (id code : String)
  | ready (id confirmed : String) (now : Nat)
  | providerDisconnect (id : String)
  | connFailure (id : String)
  | qrRefresh (id : String)
  | retrySweep
  | deleteV1 (id : String)
  | deleteV2 (id : String)
  | updateName (id : String) (name phone : Option String)

/-- Apply one operation to the state (responses discarded). -/
def stepOp (s : SysState) : Op → SysState
  | Op.register id name phone => (registerVendor s id name phone).1
  | Op.qrIssued id code => qrEventStep s id code
  | Op.ready id confirmed now => readyEvent s id confirmed now
  | Op.providerDisconnect id => disconnectEvent s id
  | Op.connFailure id => connFailureEvent s id
  | Op.qrRefresh id => qrRefreshStep s id
  | Op.retrySweep => retrySweepV2 s
  | Op.deleteV1 id => (deleteVendorV1 s id).1
  | Op.deleteV2 id => (deleteVendorV2 s id).1
  | Op.updateName id name phone => (updateVendorPut s id name phone).1

/-- Run an operation history from the fresh process state. -/
def runOps (ops : List Op) : SysState := ops.foldl stepOp initState

/-- Structural registry invariant maintained by every operation: the keyed
vendor list has duplicate-free ids (it models a `Map`), and no vendor's retry
counter exceeds the retry ceiling of 3. -/
def goodState (s : SysState) : Prop :=
  (s.vendors.map (fun v => v.id)).Nodup ∧
  ∀ v ∈ s.vendors, v.reconnectAttempts ≤ 3

/-- A pending vendor with a pairing code and port 3108, used as a concrete
test fixture. -/
def vendorA : Vendor :=
  { id := "a", name := "Alice", phoneNumber := "", assignedNumber := some "521",
    status := VStatus.pending, qr := some "QRDATA", lastConnection := none,
    reconnectAttempts := 0, port := 3108, gen := 1 }

/-- A state holding just `vendorA`, its port reserved, its QR refresh interval
running. -/
def pendingState : SysState :=
  { initState with
    vendors := [vendorA], usedPorts := [3108],
    totalConnections := 1, pendingConnections := 1, qrTimers := ["a"],
    nextGen := 2 }

/-- A registry filled to the concurrency cap (seventy vendors). -/
def capVendors : List Vendor :=
  (List.range MAX_CONCURRENT_CONNECTIONS).map
    (fun i =>
      { id := "v", name := "n", phoneNumber := "", assignedNumber := some "521",
        status := VStatus.pending, qr := none, lastConnection := none,
        reconnectAttempts := 0, port := PORT_RANGE_START + i, gen := 0 })

/-- A state at the concurrency cap. -/
def capState : SysState := { initState with vendors := capVendors }

/-- A disconnected vendor with one prior retry, whose provider adapter is
generation 5. -/
def c4Vendor : Vendor :=
  { vendorA with
    status := VStatus.disconnected, qr := none,
    reconnectAttempts := 1, gen := 5 }

/-- A state holding just `c4Vendor`; a registration here would hand out
generation 6. -/
def c4State : SysState :=
  { initState with
    vendors := [c4Vendor], usedPorts := [3108],
    totalConnections := 1, nextGen := 6 }

/-- A fully populated connected vendor (every optional field present). -/
def c5Vendor : Vendor :=
  { vendorA with
    status := VStatus.connected, qr := none, phoneNumber := "521",
    lastConnection := some 1700000000 }

/-- A connected vendor used for the double-deletion scenario. -/
def c7Vendor : Vendor :=
  { vendorA with
    id := "g", status := VStatus.connected, qr := none,
    phoneNumber := "521", port := 3110, gen := 2 }

/-- A state holding just `c7Vendor`. -/
def c7Start : SysState :=
  { initState with
    vendors := [c7Vendor], usedPorts := [3110],
    totalConnections := 1 }

/-- The state after the first successful deletion of `c7Vendor`. -/
def c7After : SysState := (deleteVendorV2 c7Start "g").1

/-- The stale on-disk version of vendor `a` (as persisted before a restart). -/
def oldVendorA : Vendor :=
  { vendorA with
    status := VStatus.disconnected, qr := none, gen := 0 }

/-- The live in-memory version of vendor `a` after re-pairing. -/
def newVendorA : Vendor :=
  { vendorA with
    status := VStatus.connected, qr := none, phoneNumber := "521",
    gen := 3 }

/-- A second vendor, present only in memory. -/
def vendorB : Vendor :=
  { vendorA with
    id := "b", name := "Bob", assignedNumber := some "700",
    qr := none, port := 3109, gen := 4 }

/-- A post-restart state: the file still holds the stale record of `a`, while
memory holds the fresh `a` and the new `b`. -/
def c8State : SysState :=
  { initState with
    vendors := [newVendorA, vendorB], usedPorts := [3108, 3109],
    totalConnections := 2, file := some (snapshotV2 [oldVendorA]) }

/-- A state where vendor `b` exists only in memory and the file is absent. -/
def c8V1State : SysState :=
  { initState with
    vendors := [vendorB], usedPorts := [3109],
    totalConnections := 1, file := none }

/-- Characterization of a successful scan: the result is the first port at or
after `p` (within the fuel window) that is not reserved. -/
theorem scanPorts_some_spec (used : List Nat) :
    ∀ n p r, scanPorts used p n = some r →
      p ≤ r ∧ r < p + n ∧ r ∉ used ∧ ∀ q, p ≤ q → q < r → q ∈ used := by
  intro n
  induction n with
  | zero => intro p r h; simp [scanPorts] at h
  | succ n ih =>
    intro p r h
    simp only [scanPorts] at h
    by_cases hp : p ∈ used
    · rw [if_pos hp] at h
      obtain ⟨h1, h2, h3, h4⟩ := ih (p + 1) r h
      refine ⟨by omega, by omega, h3, fun q hq1 hq2 => ?_⟩
      rcases Nat.eq_or_lt_of_le hq1 with heq | hlt
      · exact heq ▸ hp
      · exact h4 q hlt hq2
    · rw [if_neg hp] at h
      injection h with h
      subst h
      exact ⟨Nat.le_refl _, by omega, hp, fun q hq1 hq2 => by omega⟩

/-- The scan fails exactly when every port of the window is reserved. -/
theorem scanPorts_none_spec (used : List Nat) :
    ∀ n p, scanPorts used p n = none ↔ ∀ q, p ≤ q → q < p + n → q ∈ used := by
  intro n
  induction n with
  | zero =>
    intro p
    exact ⟨fun _ q hq1 hq2 => by omega, fun _ => rfl⟩
  | succ n ih =>
    intro p
    simp only [scanPorts]
    by_cases hp : p ∈ used
    · rw [if_pos hp, ih (p + 1)]
      constructor
      · intro h q hq1 hq2
        rcases Nat.eq_or_lt_of_le hq1 with heq | hlt
        · exact heq ▸ hp
        · exact h q hlt (by omega)
      · intro h q hq1 hq2
        exact h q (by omega) (by omega)
    · rw [if_neg hp]
      constructor
      · intro h; cases h
      · intro h; exact absurd (h p (Nat.le_refl _) (by omega)) hp

/-- Membership in the visited port list is being inside the configured range. -/
theorem mem_portRange_iff (q : Nat) :
    q ∈ portRange ↔ PORT_RANGE_START ≤ q ∧ q ≤ PORT_RANGE_END := by
  have hse : PORT_RANGE_START = 3108 := rfl
  have hee : PORT_RANGE_END = 3178 := rfl
  rw [portRange, List.mem_range'_1, hse, hee]
  omega

/-- The visited port list has no duplicates. -/
theorem nodup_portRange : portRange.Nodup := by
  rw [portRange]; exact List.nodup_range' _ _

/-- Characterization of a successful acquire: the returned port is the lowest
free port of the range and is added to the pool. -/
theorem getAvailablePort_some_spec (used : List Nat) (p : Nat) (used1 : List Nat)
    (h : getAvailablePort used = some (p, used1)) :
    p ∈ portRange ∧ p ∉ used ∧ used1 = setAdd used p ∧
      ∀ q ∈ portRange, q ∉ used → p ≤ q := by
  unfold getAvailablePort at h
  cases hscan : scanPorts used PORT_RANGE_START (PORT_RANGE_END + 1 - PORT_RANGE_START) with
  | none => rw [hscan] at h; cases h
  | some r =>
    rw [hscan] at h
    simp only [Option.some.injEq, Prod.mk.injEq] at h
    obtain ⟨rfl, rfl⟩ := h
    obtain ⟨hs1, hs2, hs3, hs4⟩ := scanPorts_some_spec used _ _ _ hscan
    have hle : PORT_RANGE_START ≤ PORT_RANGE_END := by decide
    refine ⟨?_, hs3, rfl, ?_⟩
    · rw [mem_portRange_iff]; omega
    · intro q hq hqnot
      rw [mem_portRange_iff] at hq
      by_contra hlt
      push_neg at hlt
      exact hqnot (hs4 q hq.1 hlt)

/-- Acquire fails exactly when every port of the range is reserved. -/
theorem getAvailablePort_none_iff (used : List Nat) :
    getAvailablePort used = none ↔ ∀ p ∈ portRange, p ∈ used := by
  have hmain : getAvailablePort used = none ↔
      scanPorts used PORT_RANGE_START (PORT_RANGE_END + 1 - PORT_RANGE_START) = none := by
    unfold getAvailablePort
    cases scanPorts used PORT_RANGE_START (PORT_RANGE_END + 1 - PORT_RANGE_START) with
    | none => simp
    | some r => simp
  rw [hmain, scanPorts_none_spec]
  have hle : PORT_RANGE_START ≤ PORT_RANGE_END := by decide
  constructor
  · intro h p hp
    rw [mem_portRange_iff] at hp
    exact h p hp.1 (by omega)
  · intro h q hq1 hq2
    refine h q ?_
    rw [mem_portRange_iff]
    omega

/-- One acquire or release keeps the pool duplicate-free and inside the range. -/
theorem allocStep_preserves (used : List Nat) (op : AllocOp)
    (h : used.Nodup ∧ ∀ p ∈ used, p ∈ portRange) :
    (allocStep used op).Nodup ∧ ∀ p ∈ allocStep used op, p ∈ portRange := by
  obtain ⟨hnd, hsub⟩ := h
  cases op with
  | acquire =>
    unfold allocStep
    cases hacq : getAvailablePort used with
    | none => exact ⟨hnd, hsub⟩
    | some pr =>
      obtain ⟨p, used1⟩ := pr
      obtain ⟨hmem, hnot, rfl, _⟩ := getAvailablePort_some_spec used p used1 hacq
      unfold setAdd
      rw [if_neg hnot]
      constructor
      · simp [List.nodup_append, hnd, hnot]
      · intro q hq
        rcases List.mem_append.mp hq with h1 | h1
        · exact hsub q h1
        · simp at h1; exact h1 ▸ hmem
  | release p =>
    unfold allocStep setDelete
    exact ⟨hnd.filter _, fun q hq => hsub q (List.mem_of_mem_filter hq)⟩

/-- The allocator invariant holds after every acquire/release history. -/
theorem runAlloc_inv (ops : List AllocOp) :
    (runAlloc ops).Nodup ∧ ∀ p ∈ runAlloc ops, p ∈ portRange := by
  unfold runAlloc
  have h : ∀ (ops : List AllocOp) (used : List Nat),
      used.Nodup ∧ (∀ p ∈ used, p ∈ portRange) →
      (ops.foldl allocStep used).Nodup ∧ ∀ p ∈ ops.foldl allocStep used, p ∈ portRange := by
    intro ops
    induction ops with
    | nil => intro used h; simpa using h
    | cons op rest ih => intro used h; exact ih _ (allocStep_preserves used op h)
  exact h ops [] ⟨List.nodup_nil, by simp⟩

/-- C2: over every acquire/release history the pool never holds two live
reservations of one port and never leaves `[PORT_RANGE_START, PORT_RANGE_END]`;
a successful `getAvailablePort` hands out the lowest free port of the range and
marks it reserved; it fails exactly when no port of the range is free. -/
theorem c2_allocator :
    (∀ ops : List AllocOp,
        (runAlloc ops).Nodup ∧ ∀ p ∈ runAlloc ops, p ∈ portRange) ∧
    (∀ used p used1, getAvailablePort used = some (p, used1) →
        p ∈ portRange ∧ p ∉ used ∧ used1 = setAdd used p ∧
        ∀ q ∈ portRange, q ∉ used → p ≤ q) ∧
    (∀ used : List Nat, getAvailablePort used = none ↔ ∀ p ∈ portRange, p ∈ used) :=
  ⟨runAlloc_inv,
   fun used p used1 h => getAvailablePort_some_spec used p used1 h,
   getAvailablePort_none_iff⟩

/-- Witness for C2: with port 3108 reserved, acquire hands out 3109, the
lowest free port, and reserves it. -/
theorem c2_allocator_witness :
    getAvailablePort [3108] = some (3109, setAdd [3108] 3109) ∧
    (3109 ∈ portRange ∧ 3109 ∉ [3108] ∧
      setAdd [3108] 3109 = setAdd [3108] 3109 ∧
      ∀ q ∈ portRange, q ∉ [3108] → 3109 ≤ q) := by
  have h : getAvailablePort [3108] = some (3109, setAdd [3108] 3109) := by decide
  exact ⟨h, c2_allocator.2.1 [3108] 3109 (setAdd [3108] 3109) h⟩

/-- C1 counterexample: the claim asserts the number of ports in
`[PORT_RANGE_START, PORT_RANGE_END]` equals the cap; in the source the range
holds `MAX_CONCURRENT_CONNECTIONS + 1 = 71` ports. -/
theorem c1_range_size_counterexample :
    portRange.length ≠ MAX_CONCURRENT_CONNECTIONS := by decide

/-- C1 (amended): a registration arriving at the concurrency cap is answered
`atCapacity` with the state untouched; but the port range holds `cap + 1`
ports, so allocator exhaustion is not the same condition as registry capacity:
any duplicate-free pool of at most `cap` ports still leaves acquire a free
port. -/
theorem c1_admission_and_pool :
    (∀ (s : SysState) (id name phone : String),
        s.vendors.length ≥ MAX_CONCURRENT_CONNECTIONS →
        registerVendor s id name phone = (s, RegisterResult.atCapacity)) ∧
    portRange.length = MAX_CONCURRENT_CONNECTIONS + 1 ∧
    (∀ used : List Nat, used.Nodup → used.length ≤ MAX_CONCURRENT_CONNECTIONS →
        (getAvailablePort used).isSome) := by
  refine ⟨?_, by decide, ?_⟩
  · intro s id name phone h
    unfold registerVendor
    rw [if_pos h]
  · intro used hnd hlen
    cases hacq : getAvailablePort used with
    | some pr => rfl
    | none =>
      exfalso
      have hall : ∀ p ∈ portRange, p ∈ used := (getAvailablePort_none_iff used).mp hacq
      have hsub : portRange ⊆ used := fun p hp => hall p hp
      have hlenle := (List.subperm_of_subset nodup_portRange hsub).length_le
      have h71 : portRange.length = 71 := by decide
      have hmax : MAX_CONCURRENT_CONNECTIONS = 70 := rfl
      rw [h71] at hlenle
      rw [hmax] at hlen
      omega

/-- Witness for C1: at the seventy-vendor state registration is refused as at
capacity, while the empty pool still admits an acquire. -/
theorem c1_admission_witness :
    capState.vendors.length ≥ MAX_CONCURRENT_CONNECTIONS ∧
    registerVendor capState "x" "n" "p" = (capState, RegisterResult.atCapacity) ∧
    (getAvailablePort []).isSome := by
  have h : capState.vendors.length ≥ MAX_CONCURRENT_CONNECTIONS := by decide
  exact ⟨h, c1_admission_and_pool.1 capState "x" "n" "p" h,
    c1_admission_and_pool.2.2 [] (by decide) (by decide)⟩

/-- An id never survives the filter that removes it (timer cancellation). -/
theorem not_mem_filter_ne (l : List String) (id : String) :
    id ∉ l.filter (fun t => decide (t ≠ id)) := by
  intro h
  have := (List.mem_filter.mp h).2
  simp at this

/-- Looking up the modified key returns the modified record, for key-preserving
updates. -/
theorem findVendorIn_modify_self (l : List Vendor) (id : String) (f : Vendor → Vendor)
    (hf : ∀ v, (f v).id = v.id) :
    findVendorIn (modifyVendor l id f) id = (findVendorIn l id).map f := by
  induction l with
  | nil => rfl
  | cons w rest ih =>
    by_cases h : w.id = id
    · simp [modifyVendor, findVendorIn, h, hf w]
    · simp [modifyVendor, findVendorIn, h, ih]

/-- Looking up any other key is unaffected by a key-preserving update. -/
theorem findVendorIn_modify_ne (l : List Vendor) (id k : String) (f : Vendor → Vendor)
    (hf : ∀ v, (f v).id = v.id) (hne : k ≠ id) :
    findVendorIn (modifyVendor l id f) k = findVendorIn l k := by
  have hik : id ≠ k := fun he => hne he.symm
  induction l with
  | nil => rfl
  | cons w rest ih =>
    by_cases h : w.id = id
    · have h2 : w.id ≠ k := by rw [h]; exact hik
      simp [modifyVendor, findVendorIn, h, h2, hik, hf w]
    · by_cases hwk : w.id = k
      · simp [modifyVendor, findVendorIn, h, hwk, hne]
      · simp [modifyVendor, findVendorIn, h, hwk, ih]

/-- `Map.set` then `get` of the same key yields the stored record. -/
theorem findVendorIn_set_self (l : List Vendor) (v : Vendor) :
    findVendorIn (setVendor l v) v.id = some v := by
  induction l with
  | nil => simp [setVendor, findVendorIn]
  | cons w rest ih =>
    by_cases h : w.id = v.id
    · simp [setVendor, findVendorIn, h]
    · simp [setVendor, findVendorIn, h, ih]

/-- `Map.set` leaves every other key unchanged. -/
theorem findVendorIn_set_ne (l : List Vendor) (v : Vendor) (k : String)
    (hne : k ≠ v.id) :
    findVendorIn (setVendor l v) k = findVendorIn l k := by
  have hvk : v.id ≠ k := fun he => hne he.symm
  induction l with
  | nil => simp [setVendor, findVendorIn, hvk]
  | cons w rest ih =>
    by_cases h : w.id = v.id
    · have h2 : w.id ≠ k := by rw [h]; exact hvk
      simp [setVendor, findVendorIn, h, hvk, h2]
    · by_cases hwk : w.id = k
      · simp [setVendor, findVendorIn, h, hwk, hne]
      · simp [setVendor, findVendorIn, h, hwk, ih]

/-- `Map.delete` leaves every other key unchanged. -/
theorem findVendorIn_erase_ne (l : List Vendor) (id k : String) (hne : k ≠ id) :
    findVendorIn (eraseVendor l id) k = findVendorIn l k := by
  have hik : id ≠ k := fun he => hne he.symm
  induction l with
  | nil => rfl
  | cons w rest ih =>
    by_cases h : w.id = id
    · have h2 : w.id ≠ k := by rw [h]; exact hik
      simp [eraseVendor, findVendorIn, h, h2, hik]
    · by_cases hwk : w.id = k
      · simp [eraseVendor, findVendorIn, h, hwk, hne]
      · simp [eraseVendor, findVendorIn, h, hwk, ih]

/-- A successful lookup returns a member carrying the looked-up key. -/
theorem findVendorIn_eq_some (l : List Vendor) (k : String) (v : Vendor)
    (h : findVendorIn l k = some v) : v ∈ l ∧ v.id = k := by
  induction l with
  | nil => cases h
  | cons w rest ih =>
    by_cases hw : w.id = k
    · rw [findVendorIn, if_pos hw] at h
      injection h with h
      subst h
      exact ⟨List.mem_cons_self _ _, hw⟩
    · rw [findVendorIn, if_neg hw] at h
      obtain ⟨h1, h2⟩ := ih h
      exact ⟨List.mem_cons_of_mem _ h1, h2⟩

/-- In a registry with duplicate-free keys, every member is found under its
own key. -/
theorem findVendorIn_of_mem_nodup (l : List Vendor)
    (h : (l.map (fun v => v.id)).Nodup) (v : Vendor) (hv : v ∈ l) :
    findVendorIn l v.id = some v := by
  induction l with
  | nil => cases hv
  | cons w rest ih =>
    rcases List.mem_cons.mp hv with rfl | hv'
    · simp [findVendorIn]
    · have hwid : w.id ≠ v.id := by
        intro he
        have hmem : v.id ∈ rest.map (fun x => x.id) := List.mem_map_of_mem _ hv'
        rw [← he] at hmem
        exact (List.nodup_cons.mp h).1 hmem
      rw [findVendorIn, if_neg hwid]
      exact ih (List.nodup_cons.mp h).2 hv'

/-- C3: whenever a registered vendor's provider emits ready with a confirmed
identity, the refresh interval is cancelled and the vendor becomes connected
with the confirmed identity, its pairing code cleared, `lastConnection`
stamped and `reconnectAttempts` reset — for every confirmed identity, so a
mismatch with `assignedNumber` changes nothing (the handler never branches on
it). -/
theorem c3_ready_transition (s : SysState) (id confirmed : String) (now : Nat)
    (v : Vendor) (h : findVendor s id = some v) :
    id ∉ (readyEvent s id confirmed now).qrTimers ∧
    findVendor (readyEvent s id confirmed now) id =
      some { v with
             status := VStatus.connected, phoneNumber := confirmed,
             qr := none, lastConnection := some now, reconnectAttempts := 0 } := by
  have hs1 : findVendorIn (clearTimer s id).vendors id = some v := h
  constructor
  · unfold readyEvent
    rw [hs1]
    exact not_mem_filter_ne s.qrTimers id
  · unfold readyEvent findVendor
    rw [hs1]
    have hmod := findVendorIn_modify_self (clearTimer s id).vendors id
      (fun v => { v with
                  status := VStatus.connected, phoneNumber := confirmed,
                  qr := none, lastConnection := some now, reconnectAttempts := 0 })
      (fun _ => rfl)
    have hproj :
        (applyVendorChange (clearTimer s id) id
          (fun v => { v with
                      status := VStatus.connected, phoneNumber := confirmed,
                      qr := none, lastConnection := some now,
                      reconnectAttempts := 0 })).vendors =
        modifyVendor (clearTimer s id).vendors id
          (fun v => { v with
                      status := VStatus.connected, phoneNumber := confirmed,
                      qr := none, lastConnection := some now,
                      reconnectAttempts := 0 }) := rfl
    rw [hproj, hmod, hs1]
    rfl

/-- Witness for C3: vendor `a` was registered for identity 521 but the
provider confirms 999; the transition completes identically. -/
theorem c3_ready_witness :
    findVendor pendingState "a" = some vendorA ∧
    ("a" ∉ (readyEvent pendingState "a" "999" 42).qrTimers ∧
     findVendor (readyEvent pendingState "a" "999" 42) "a" =
       some { vendorA with
              status := VStatus.connected, phoneNumber := "999",
              qr := none, lastConnection := some 42, reconnectAttempts := 0 }) := by
  have h : findVendor pendingState "a" = some vendorA := by decide
  exact ⟨h, c3_ready_transition pendingState "a" "999" 42 vendorA h⟩

/-- C6: evaluating the QR-refresh callback at the pending vendor `a` holding
port 3108: after the refresh the vendor is back in the registry still holding
port 3108, but the port is no longer reserved in the pool and the total
connection counter has dropped to 0 — the pool and the registry disagree,
the accounting changed. -/
theorem c6_qr_refresh_pool_divergence :
    (findVendor (qrRefreshStep pendingState "a") "a").map (fun v => v.port) =
      some 3108 ∧
    3108 ∉ (qrRefreshStep pendingState "a").usedPorts ∧
    (qrRefreshStep pendingState "a").totalConnections = 0 ∧
    pendingState.usedPorts = [3108] ∧
    pendingState.totalConnections = 1 := by decide

/-- C7 (amended): once a vendor is gone, a second cleanup is a no-op on the
registry and the pool, with no error from either cleanup path; variant-1
deletion still answers ok, while variant-2 deletion answers `notFound`; a
late connection-failure event leaves registry, pool, counters and file
untouched (it only clears the refresh interval). -/
theorem c7_double_cleanup (s : SysState) (id : String)
    (h : findVendor s id = none) :
    cleanupVendorV1 s id = s ∧
    cleanupVendorV2 s id = s ∧
    deleteVendorV1 s id = (s, DeleteResult.ok) ∧
    deleteVendorV2 s id = (s, DeleteResult.notFound) ∧
    (connFailureEvent s id).vendors = s.vendors ∧
    (connFailureEvent s id).usedPorts = s.usedPorts ∧
    (connFailureEvent s id).totalConnections = s.totalConnections ∧
    (connFailureEvent s id).file = s.file := by
  have h1 : cleanupVendorV1 s id = s := by
    unfold cleanupVendorV1
    rw [h]
  have h2 : cleanupVendorV2 s id = s := by
    unfold cleanupVendorV2
    rw [h]
  have h3 : deleteVendorV1 s id = (s, DeleteResult.ok) := by
    unfold deleteVendorV1
    rw [h1]
  have h4 : deleteVendorV2 s id = (s, DeleteResult.notFound) := by
    unfold deleteVendorV2
    rw [h]
  have h5 : connFailureEvent s id = clearTimer s id := by
    unfold connFailureEvent
    have hx : findVendorIn (clearTimer s id).vendors id = none := h
    rw [hx]
  rw [h5]
  exact ⟨h1, h2, h3, h4, rfl, rfl, rfl, rfl⟩

/-- Witness for C7 at the state reached after actually deleting vendor `g`. -/
theorem c7_double_cleanup_witness :
    findVendor c7After "g" = none ∧
    (cleanupVendorV1 c7After "g" = c7After ∧
     cleanupVendorV2 c7After "g" = c7After ∧
     deleteVendorV1 c7After "g" = (c7After, DeleteResult.ok) ∧
     deleteVendorV2 c7After "g" = (c7After, DeleteResult.notFound) ∧
     (connFailureEvent c7After "g").vendors = c7After.vendors ∧
     (connFailureEvent c7After "g").usedPorts = c7After.usedPorts ∧
     (connFailureEvent c7After "g").totalConnections = c7After.totalConnections ∧
     (connFailureEvent c7After "g").file = c7After.file) := by
  have h : findVendor c7After "g" = none := by decide
  exact ⟨h, c7_double_cleanup c7After "g" h⟩

/-- C7 counterexample: the first deletion of vendor `g` succeeds; repeating
the variant-2 deletion on the resulting state surfaces `notFound` instead of
the ok the claim promises. -/
theorem c7_second_delete_counterexample :
    (deleteVendorV2 c7Start "g").2 = DeleteResult.ok ∧
    (deleteVendorV2 c7After "g").2 = DeleteResult.notFound := by decide

/-- Decoding inverts the variant-2 encoding of a single vendor. -/
theorem decode_encodeV2 (v : Vendor) :
    decodeVendorJson (encodeVendorV2 v) = some (persistedOfVendorV2 v) := by
  rcases v with ⟨id, name, phone, assigned, status, qr, lastC, attempts, port, g⟩
  cases assigned <;> cases lastC <;> cases status <;> rfl

/-- Decoding inverts the variant-1 encoding: the absent `port` key reads back
as `none`. -/
theorem decode_encodeV1 (v : Vendor) :
    decodeVendorJson (encodeVendorV1 v) = some (persistedOfVendorV1 v) := by
  rcases v with ⟨id, name, phone, assigned, status, qr, lastC, attempts, port, g⟩
  cases assigned <;> cases lastC <;> cases status <;> rfl

/-- Array decoding inverts the variant-2 snapshot of a whole registry. -/
theorem decodeAll_map_encodeV2 (l : List Vendor) :
    decodeAll (l.map encodeVendorV2) = some (l.map persistedOfVendorV2) := by
  induction l with
  | nil => rfl
  | cons v rest ih => simp [decodeAll, decode_encodeV2, ih]

/-- Array decoding inverts the variant-1 snapshot of a whole registry. -/
theorem decodeAll_map_encodeV1 (l : List Vendor) :
    decodeAll (l.map encodeVendorV1) = some (l.map persistedOfVendorV1) := by
  induction l with
  | nil => rfl
  | cons v rest ih => simp [decodeAll, decode_encodeV1, ih]

/-- C5 (amended): for every registry state, snapshot followed by load
reproduces exactly the fields each snapshot variant persists: the variant-2
writer round-trips all seven fields `{id, name, phoneNumber, assignedNumber,
status, lastConnection, port}`, while the variant-1 writer round-trips only
the six fields without `port`. -/
theorem c5_snapshot_roundtrip (l : List Vendor) :
    loadFile (some (snapshotV2 l)) = l.map persistedOfVendorV2 ∧
    loadFile (some (snapshotV1 l)) = l.map persistedOfVendorV1 := by
  constructor
  · simp [loadFile, snapshotV2, decodeAll_map_encodeV2]
  · simp [loadFile, snapshotV1, decodeAll_map_encodeV1]

/-- C5 counterexample: snapshotting `c5Vendor` with the variant-1 writer and
loading does not reproduce the seven-field record the claim names — the
`port` field is missing. -/
theorem c5_port_field_counterexample :
    loadFile (some (snapshotV1 [c5Vendor])) ≠ [c5Vendor].map persistedOfVendorV2 := by
  decide

/-- Running the broadcast loop with a non-empty accumulator prepends it. -/
theorem broadcastRun_append (send : Vendor → Except String Unit)
    (acc : List SendOutcome) (l : List Vendor) :
    broadcastRun send acc l = acc ++ broadcastRun send [] l := by
  induction l generalizing acc with
  | nil => simp [broadcastRun]
  | cons v rest ih =>
    by_cases h : v.status = VStatus.connected
    · simp only [broadcastRun, if_pos h]
      rw [ih (acc ++ [sendResult send v]), ih (List.nil ++ [sendResult send v])]
      simp
    · simp only [broadcastRun, if_neg h]
      exact ih acc

/-- C9: a broadcast attempts one send on exactly the connected vendors, in
registry order, and returns one outcome per connected vendor — the success or
the caught failure of that vendor's own send — so one vendor's delivery
failure neither removes other vendors' attempts nor their outcomes.  The
handler writes no vendor state: the result is a pure function of the registry
and the delivery oracle. -/
theorem c9_broadcast (s : SysState) (send : Vendor → Except String Unit) :
    broadcastMessages s send =
      (s.vendors.filter (fun v => decide (v.status = VStatus.connected))).map
        (sendResult send) := by
  unfold broadcastMessages
  have hgen : ∀ l : List Vendor,
      broadcastRun send [] l =
        (l.filter (fun v => decide (v.status = VStatus.connected))).map
          (sendResult send) := by
    intro l
    induction l with
    | nil => rfl
    | cons v rest ih =>
      by_cases h : v.status = VStatus.connected
      · simp only [broadcastRun, if_pos h]
        rw [broadcastRun_append send (List.nil ++ [sendResult send v]) rest]
        simp [List.filter_cons, h, ih]
      · simp only [broadcastRun, if_neg h]
        rw [ih]
        simp [List.filter_cons, h]
  exact hgen s.vendors

/-- Looking up a record list by key after appending one record. -/
theorem findRecord_append_single (l : List PersistedVendor) (a : PersistedVendor)
    (k : String) :
    findRecord (l ++ [a]) k =
      match findRecord l k with
      | some p => some p
      | none => if a.id = k then some a else none := by
  induction l with
  | nil => rfl
  | cons p rest ih =>
    by_cases hp : p.id = k
    · simp [findRecord, hp]
    · simp [findRecord, hp, ih]

/-- Replacing by key finds the replacement under that key, provided the key
was present. -/
theorem findRecord_replace_self (l : List PersistedVendor) (a : PersistedVendor)
    (h : findRecord l a.id ≠ none) :
    findRecord (replaceRecord l a) a.id = some a := by
  induction l with
  | nil => exact absurd rfl h
  | cons p rest ih =>
    by_cases hp : p.id = a.id
    · simp [replaceRecord, findRecord, hp]
    · rw [findRecord, if_neg hp] at h
      simp [replaceRecord, findRecord, hp, ih h]

/-- Replacing by key leaves every other key's lookup unchanged. -/
theorem findRecord_replace_ne (l : List PersistedVendor) (a : PersistedVendor)
    (k : String) (hne : k ≠ a.id) :
    findRecord (replaceRecord l a) k = findRecord l k := by
  induction l with
  | nil => rfl
  | cons p rest ih =>
    by_cases hp : p.id = a.id
    · have h2 : p.id ≠ k := by rw [hp]; exact fun he => hne he.symm
      have h3 : a.id ≠ k := fun he => hne he.symm
      simp [replaceRecord, findRecord, hp, h2, h3]
    · by_cases hpk : p.id = k
      · simp [replaceRecord, findRecord, hp, hpk, hne]
      · simp [replaceRecord, findRecord, hp, hpk, ih]

/-- Replacing by key preserves the key list. -/
theorem map_id_replaceRecord (l : List PersistedVendor) (a : PersistedVendor) :
    (replaceRecord l a).map (fun p => p.id) = l.map (fun p => p.id) := by
  induction l with
  | nil => rfl
  | cons p rest ih =>
    by_cases hp : p.id = a.id
    · simp [replaceRecord, hp]
    · simp [replaceRecord, hp, ih]

/-- A key is absent exactly when it is in no record of the list. -/
theorem findRecord_none_iff (l : List PersistedVendor) (k : String) :
    findRecord l k = none ↔ k ∉ l.map (fun p => p.id) := by
  induction l with
  | nil => simp [findRecord]
  | cons p rest ih =>
    by_cases hp : p.id = k
    · simp [findRecord, hp]
    · have hpk : k ≠ p.id := fun he => hp he.symm
      simp [findRecord, hp, ih, hpk]

/-- One merge iteration finds the merged-in record under its own key. -/
theorem findRecord_mergeStep_self (acc : List PersistedVendor)
    (a : PersistedVendor) :
    findRecord (mergeStep acc a) a.id = some a := by
  unfold mergeStep
  cases hf : findRecord acc a.id with
  | some p =>
    exact findRecord_replace_self acc a (by rw [hf]; exact fun h => Option.noConfusion h)
  | none =>
    rw [findRecord_append_single, hf]
    simp

/-- One merge iteration leaves every other key's lookup unchanged. -/
theorem findRecord_mergeStep_ne (acc : List PersistedVendor) (a : PersistedVendor)
    (k : String) (hne : k ≠ a.id) :
    findRecord (mergeStep acc a) k = findRecord acc k := by
  unfold mergeStep
  cases hf : findRecord acc a.id with
  | some p => exact findRecord_replace_ne acc a k hne
  | none =>
    rw [findRecord_append_single]
    cases hg : findRecord acc k with
    | some q => rfl
    | none =>
      have hik : a.id ≠ k := fun he => hne he.symm
      simp [hik]

/-- The key list after one merge iteration: unchanged on collision, the new
key appended otherwise. -/
theorem map_id_mergeStep (acc : List PersistedVendor) (a : PersistedVendor) :
    (mergeStep acc a).map (fun p => p.id) =
      if findRecord acc a.id = none then acc.map (fun p => p.id) ++ [a.id]
      else acc.map (fun p => p.id) := by
  unfold mergeStep
  cases hf : findRecord acc a.id with
  | some p => simp [map_id_replaceRecord]
  | none => simp

/-- One merge iteration keeps the key list duplicate-free. -/
theorem nodup_mergeStep (acc : List PersistedVendor) (a : PersistedVendor)
    (h : (acc.map (fun p => p.id)).Nodup) :
    ((mergeStep acc a).map (fun p => p.id)).Nodup := by
  rw [map_id_mergeStep]
  by_cases hf : findRecord acc a.id = none
  · rw [if_pos hf]
    have hnot : a.id ∉ acc.map (fun p => p.id) := (findRecord_none_iff acc a.id).mp hf
    simp [List.nodup_append, h, hnot]
  · rw [if_neg hf]
    exact h

/-- The merge keeps the key list duplicate-free. -/
theorem mergeVendors_nodup (active stored : List PersistedVendor)
    (hs : (stored.map (fun p => p.id)).Nodup) :
    ((mergeVendors stored active).map (fun p => p.id)).Nodup := by
  induction active generalizing stored with
  | nil => exact hs
  | cons a rest ih => exact ih _ (nodup_mergeStep stored a hs)

/-- A key appears in the merge exactly when it appears in one of the inputs. -/
theorem mergeVendors_mem_ids (active stored : List PersistedVendor) (k : String) :
    k ∈ (mergeVendors stored active).map (fun p => p.id) ↔
      k ∈ stored.map (fun p => p.id) ∨ k ∈ active.map (fun p => p.id) := by
  induction active generalizing stored with
  | nil => simp [mergeVendors]
  | cons a rest ih =>
    rw [mergeVendors, ih]
    have hstep : k ∈ (mergeStep stored a).map (fun p => p.id) ↔
        k ∈ stored.map (fun p => p.id) ∨ k = a.id := by
      rw [map_id_mergeStep]
      by_cases hf : findRecord stored a.id = none
      · rw [if_pos hf]; simp
      · rw [if_neg hf]
        have hmem : a.id ∈ stored.map (fun p => p.id) := by
          by_contra hnot
          exact hf ((findRecord_none_iff stored a.id).mpr hnot)
        constructor
        · exact Or.inl
        · rintro (h | rfl)
          · exact h
          · exact hmem
    rw [hstep]
    simp only [List.map_cons, List.mem_cons]
    tauto

/-- Keys absent from the in-memory side read through to the stored side. -/
theorem mergeVendors_find_stored (active stored : List PersistedVendor)
    (k : String) (h : findRecord active k = none) :
    findRecord (mergeVendors stored active) k = findRecord stored k := by
  induction active generalizing stored with
  | nil => rfl
  | cons a rest ih =>
    by_cases hk : a.id = k
    · rw [findRecord, if_pos hk] at h
      cases h
    · rw [findRecord, if_neg hk] at h
      rw [mergeVendors, ih _ h]
      exact findRecord_mergeStep_ne stored a k (fun he => hk he.symm)

/-- Keys present on the in-memory side take precedence in the merge. -/
theorem mergeVendors_find_active (active stored : List PersistedVendor)
    (hnd : (active.map (fun p => p.id)).Nodup)
    (k : String) (p : PersistedVendor) (h : findRecord active k = some p) :
    findRecord (mergeVendors stored active) k = some p := by
  induction active generalizing stored with
  | nil => cases h
  | cons a rest ih =>
    rw [List.map_cons, List.nodup_cons] at hnd
    obtain ⟨hnota, hndrest⟩ := hnd
    by_cases hk : a.id = k
    · rw [findRecord, if_pos hk] at h
      injection h with h
      subst h
      have hrest : findRecord rest k = none := by
        rw [findRecord_none_iff]
        rw [← hk]
        exact hnota
      rw [mergeVendors, mergeVendors_find_stored rest _ k hrest]
      rw [← hk]
      exact findRecord_mergeStep_self stored a
    · rw [findRecord, if_neg hk] at h
      rw [mergeVendors]
      exact ih _ hndrest h

/-- C8 (amended): the variant-2 listing is the id-keyed merge of persisted
and in-memory vendors: every id of either source appears exactly once, ids
present in memory resolve to the in-memory record, and ids present only on
disk resolve to the stored record.  (The variant-1 `GET /vendors` endpoint
does not merge: it returns the persisted file alone — see the
counterexample.) -/
theorem c8_list_merge (s : SysState)
    (hs : ((loadFile s.file).map (fun p => p.id)).Nodup)
    (hm : ((s.vendors.map persistedOfVendorV2).map (fun p => p.id)).Nodup) :
    ((listVendorsV2 s).map (fun p => p.id)).Nodup ∧
    (∀ k, k ∈ (listVendorsV2 s).map (fun p => p.id) ↔
        k ∈ (loadFile s.file).map (fun p => p.id) ∨
        k ∈ (s.vendors.map persistedOfVendorV2).map (fun p => p.id)) ∧
    (∀ k p, findRecord (s.vendors.map persistedOfVendorV2) k = some p →
        findRecord (listVendorsV2 s) k = some p) ∧
    (∀ k, findRecord (s.vendors.map persistedOfVendorV2) k = none →
        findRecord (listVendorsV2 s) k = findRecord (loadFile s.file) k) := by
  refine ⟨?_, ?_, ?_, ?_⟩
  · exact mergeVendors_nodup _ _ hs
  · intro k
    exact mergeVendors_mem_ids _ _ k
  · intro k p h
    exact mergeVendors_find_active _ _ hm k p h
  · intro k h
    exact mergeVendors_find_stored _ _ k h

/-- Witness for C8: the file holds a stale record of vendor `a`, memory holds
the fresh `a` and a new `b`; the merged listing resolves `a` to the in-memory
record. -/
theorem c8_list_merge_witness :
    ((loadFile c8State.file).map (fun p => p.id)).Nodup ∧
    ((c8State.vendors.map persistedOfVendorV2).map (fun p => p.id)).Nodup ∧
    findRecord (listVendorsV2 c8State) "a" = some (persistedOfVendorV2 newVendorA) := by
  have h1 : ((loadFile c8State.file).map (fun p => p.id)).Nodup := by decide
  have h2 : ((c8State.vendors.map persistedOfVendorV2).map (fun p => p.id)).Nodup := by
    decide
  have h3 : findRecord (c8State.vendors.map persistedOfVendorV2) "a" =
      some (persistedOfVendorV2 newVendorA) := by decide
  exact ⟨h1, h2, (c8_list_merge c8State h1 h2).2.2.1 "a" _ h3⟩

/-- C8 counterexample: vendor `b` exists only in memory; the variant-1
`GET /vendors` handler returns only the persisted file, so `b` is missing
from the listing even though it is present in one of the two sources. -/
theorem c8_variant1_no_merge_counterexample :
    "b" ∈ c8V1State.vendors.map (fun v => v.id) ∧
    "b" ∉ (listVendorsV1 c8V1State).map (fun p => p.id) := by decide

/-- Key-preserving in-place updates keep the key list. -/
theorem map_id_modifyVendor (l : List Vendor) (id : String) (f : Vendor → Vendor)
    (hf : ∀ v, (f v).id = v.id) :
    (modifyVendor l id f).map (fun v => v.id) = l.map (fun v => v.id) := by
  induction l with
  | nil => rfl
  | cons w rest ih =>
    by_cases h : w.id = id
    · simp [modifyVendor, h, hf w]
    · simp [modifyVendor, h, ih]

/-- A member of the updated list is an old member or the image of one. -/
theorem mem_modifyVendor (l : List Vendor) (id : String) (f : Vendor → Vendor)
    (w : Vendor) (hw : w ∈ modifyVendor l id f) : w ∈ l ∨ ∃ u ∈ l, w = f u := by
  induction l with
  | nil => cases hw
  | cons x rest ih =>
    by_cases hx : x.id = id
    · rw [modifyVendor, if_pos hx] at hw
      rcases List.mem_cons.mp hw with rfl | hw'
      · exact Or.inr ⟨x, List.mem_cons_self _ _, rfl⟩
      · exact Or.inl (List.mem_cons_of_mem _ hw')
    · rw [modifyVendor, if_neg hx] at hw
      rcases List.mem_cons.mp hw with rfl | hw'
      · exact Or.inl (List.mem_cons_self _ _)
      · rcases ih hw' with h1 | ⟨u, hu, he⟩
        · exact Or.inl (List.mem_cons_of_mem _ h1)
        · exact Or.inr ⟨u, List.mem_cons_of_mem _ hu, he⟩

/-- A member of the list after `Map.set` is the stored record or an old one. -/
theorem mem_setVendor (l : List Vendor) (v w : Vendor) (hw : w ∈ setVendor l v) :
    w = v ∨ w ∈ l := by
  induction l with
  | nil =>
    rcases List.mem_cons.mp hw with rfl | hw'
    · exact Or.inl rfl
    · cases hw'
  | cons x rest ih =>
    by_cases hx : x.id = v.id
    · rw [setVendor, if_pos hx] at hw
      rcases List.mem_cons.mp hw with rfl | hw'
      · exact Or.inl rfl
      · exact Or.inr (List.mem_cons_of_mem _ hw')
    · rw [setVendor, if_neg hx] at hw
      rcases List.mem_cons.mp hw with rfl | hw'
      · exact Or.inr (List.mem_cons_self _ _)
      · rcases ih hw' with h1 | h1
        · exact Or.inl h1
        · exact Or.inr (List.mem_cons_of_mem _ h1)

/-- A key of the list after `Map.set` is an old key or the stored one. -/
theorem mem_ids_setVendor (l : List Vendor) (v : Vendor) (k : String)
    (hk : k ∈ (setVendor l v).map (fun w => w.id)) :
    k ∈ l.map (fun w => w.id) ∨ k = v.id := by
  obtain ⟨w, hw, rfl⟩ := List.mem_map.mp hk
  rcases mem_setVendor l v w hw with rfl | hmem
  · exact Or.inr rfl
  · exact Or.inl (List.mem_map_of_mem _ hmem)

/-- `Map.set` keeps the key list duplicate-free. -/
theorem nodup_ids_setVendor (l : List Vendor) (v : Vendor)
    (h : (l.map (fun w => w.id)).Nodup) :
    ((setVendor l v).map (fun w => w.id)).Nodup := by
  induction l with
  | nil => simp [setVendor]
  | cons x rest ih =>
    rw [List.map_cons, List.nodup_cons] at h
    obtain ⟨hxnot, hnd⟩ := h
    by_cases hx : x.id = v.id
    · rw [setVendor, if_pos hx, List.map_cons, List.nodup_cons]
      refine ⟨?_, hnd⟩
      rw [← hx]
      exact hxnot
    · rw [setVendor, if_neg hx, List.map_cons, List.nodup_cons]
      refine ⟨?_, ih hnd⟩
      intro hmem
      rcases mem_ids_setVendor rest v x.id hmem with h1 | h1
      · exact hxnot h1
      · exact hx h1

/-- `Map.delete` yields a sublist of the registry. -/
theorem eraseVendor_sublist (l : List Vendor) (id : String) :
    List.Sublist (eraseVendor l id) l := by
  induction l with
  | nil => exact List.Sublist.refl _
  | cons w rest ih =>
    by_cases h : w.id = id
    · rw [eraseVendor, if_pos h]
      exact List.sublist_cons_self _ _
    · rw [eraseVendor, if_neg h]
      exact List.cons_sublist_cons.mpr ih

/-- The sweep loop never touches `failedConnections`. -/
theorem sweepRun_failed (el : List Vendor) :
    ∀ st, (sweepRun st el).failedConnections = st.failedConnections := by
  induction el with
  | nil => intro st; rfl
  | cons v rest ih =>
    intro st
    rw [sweepRun, ih]
    rfl

/-- The sweep loop keeps the key list of the registry. -/
theorem sweepRun_map_id (el : List Vendor) :
    ∀ st, (sweepRun st el).vendors.map (fun v => v.id) =
      st.vendors.map (fun v => v.id) := by
  induction el with
  | nil => intro st; rfl
  | cons v rest ih =>
    intro st
    rw [sweepRun, ih]
    exact map_id_modifyVendor st.vendors v.id bumpVendor (fun _ => rfl)

/-- Per-key effect of the sweep loop over a snapshot with duplicate-free ids:
keys of the snapshot are bumped, all others untouched. -/
theorem sweepRun_find (el : List Vendor) :
    ∀ st, ((el.map (fun v => v.id)).Nodup) →
      ∀ k, findVendorIn (sweepRun st el).vendors k =
        if k ∈ el.map (fun v => v.id)
        then (findVendorIn st.vendors k).map bumpVendor
        else findVendorIn st.vendors k := by
  induction el with
  | nil =>
    intro st _ k
    simp [sweepRun]
  | cons v rest ih =>
    intro st hnd k
    rw [List.map_cons, List.nodup_cons] at hnd
    obtain ⟨hvnot, hndrest⟩ := hnd
    rw [sweepRun, ih _ hndrest k]
    have hproj :
        (saveV2 (updateMetrics
          { st with vendors := modifyVendor st.vendors v.id bumpVendor })).vendors =
        modifyVendor st.vendors v.id bumpVendor := rfl
    rw [hproj]
    by_cases hk : k = v.id
    · have hm1 : k ∉ rest.map (fun v => v.id) := by rw [hk]; exact hvnot
      have hm2 : k ∈ (v :: rest).map (fun v => v.id) := by simp [hk]
      rw [if_neg hm1, if_pos hm2, hk]
      exact findVendorIn_modify_self st.vendors v.id bumpVendor (fun _ => rfl)
    · rw [findVendorIn_modify_ne st.vendors v.id k bumpVendor (fun _ => rfl) hk]
      by_cases hmem : k ∈ rest.map (fun v => v.id)
      · rw [if_pos hmem, if_pos (by simp [hmem])]
      · rw [if_neg hmem, if_neg (by simp [hk, hmem])]

/-- Per-vendor characterization of the variant-2 retry sweep: with
duplicate-free registry keys, the vendor stored under `id` is bumped exactly
when it was disconnected with fewer than 3 attempts, and untouched (same
record, same provider generation) otherwise. -/
theorem retrySweepV2_find (s : SysState)
    (hnd : (s.vendors.map (fun v => v.id)).Nodup)
    (id : String) (v : Vendor) (h : findVendor s id = some v) :
    findVendor (retrySweepV2 s) id =
      some (if sweepEligible v = true then bumpVendor v else v) := by
  have hel : ((s.vendors.filter sweepEligible).map (fun v => v.id)).Nodup :=
    List.Nodup.sublist ((s.vendors.filter_sublist).map (fun v => v.id)) hnd
  obtain ⟨hvmem, hvid⟩ := findVendorIn_eq_some s.vendors id v h
  unfold retrySweepV2 findVendor
  rw [sweepRun_find _ s hel id]
  by_cases he : sweepEligible v = true
  · have hmem : id ∈ (s.vendors.filter sweepEligible).map (fun w => w.id) := by
      rw [← hvid]
      exact List.mem_map_of_mem _ (List.mem_filter.mpr ⟨hvmem, he⟩)
    rw [if_pos hmem, show findVendorIn s.vendors id = some v from h, if_pos he]
    rfl
  · have hmem : id ∉ (s.vendors.filter sweepEligible).map (fun w => w.id) := by
      intro hmem
      obtain ⟨u, hu, hueq⟩ := List.mem_map.mp hmem
      obtain ⟨humem, hue⟩ := List.mem_filter.mp hu
      have hfu : findVendorIn s.vendors u.id = some u :=
        findVendorIn_of_mem_nodup s.vendors hnd u humem
      rw [hueq, show findVendorIn s.vendors id = some v from h] at hfu
      injection hfu with hfu
      rw [hfu] at he
      exact he hue
    rw [if_neg hmem, show findVendorIn s.vendors id = some v from h, if_neg he]

/-- A key-preserving, bound-preserving in-place update keeps the registry
invariant. -/
theorem good_modify_list (l : List Vendor) (id : String) (f : Vendor → Vendor)
    (hf : ∀ v, (f v).id = v.id)
    (hfa : ∀ v, v.reconnectAttempts ≤ 3 → (f v).reconnectAttempts ≤ 3)
    (hnd : (l.map (fun v => v.id)).Nodup)
    (hb : ∀ v ∈ l, v.reconnectAttempts ≤ 3) :
    ((modifyVendor l id f).map (fun v => v.id)).Nodup ∧
    ∀ v ∈ modifyVendor l id f, v.reconnectAttempts ≤ 3 := by
  constructor
  · rw [map_id_modifyVendor l id f hf]; exact hnd
  · intro w hw
    rcases mem_modifyVendor l id f w hw with h1 | ⟨u, hu, rfl⟩
    · exact hb w h1
    · exact hfa u (hb u hu)

/-- Variant-1 cleanup keeps the registry invariant. -/
theorem good_cleanupV1 (s : SysState) (id : String) (h : goodState s) :
    goodState (cleanupVendorV1 s id) := by
  obtain ⟨hnd, hb⟩ := h
  unfold cleanupVendorV1
  cases hf : findVendor s id with
  | none => exact ⟨hnd, hb⟩
  | some v =>
    refine ⟨?_, ?_⟩
    · exact List.Nodup.sublist ((eraseVendor_sublist s.vendors id).map _) hnd
    · intro w hw
      exact hb w ((eraseVendor_sublist s.vendors id).subset hw)

/-- Variant-2 cleanup keeps the registry invariant. -/
theorem good_cleanupV2 (s : SysState) (id : String) (h : goodState s) :
    goodState (cleanupVendorV2 s id) := by
  obtain ⟨hnd, hb⟩ := h
  unfold cleanupVendorV2
  cases hf : findVendor s id with
  | none => exact ⟨hnd, hb⟩
  | some v =>
    refine ⟨?_, ?_⟩
    · exact List.Nodup.sublist ((eraseVendor_sublist s.vendors id).map _) hnd
    · intro w hw
      exact hb w ((eraseVendor_sublist s.vendors id).subset hw)

/-- Admitted registrations keep the registry invariant (the new vendor starts
with zero attempts). -/
theorem good_registerFresh (s : SysState) (id name phone : String)
    (h : goodState s) : goodState (registerFresh s id name phone).1 := by
  obtain ⟨hnd, hb⟩ := h
  unfold registerFresh
  cases hacq : getAvailablePort s.usedPorts with
  | none => exact ⟨hnd, hb⟩
  | some pr =>
    obtain ⟨port, used⟩ := pr
    refine ⟨nodup_ids_setVendor _ _ hnd, ?_⟩
    intro w hw
    rcases mem_setVendor _ _ _ hw with rfl | hmem
    · exact Nat.zero_le 3
    · exact hb w hmem

/-- Registration keeps the registry invariant on every branch. -/
theorem good_register (s : SysState) (id name phone : String)
    (h : goodState s) : goodState (registerVendor s id name phone).1 := by
  unfold registerVendor
  by_cases h1 : s.vendors.length ≥ MAX_CONCURRENT_CONNECTIONS
  · rw [if_pos h1]; exact h
  · rw [if_neg h1]
    by_cases h2 : name = "" ∨ phone = ""
    · rw [if_pos h2]; exact h
    · rw [if_neg h2]
      cases hf : (loadFile s.file).find? (fun p => decide (p.assignedNumber = some phone)) with
      | some existing =>
        show goodState (if existing.status ≠ VStatus.disconnected then (s, RegisterResult.alreadyRegistered) else registerFresh s id name phone).1
        by_cases h3 : existing.status ≠ VStatus.disconnected
        · rw [if_pos h3]; exact h
        · rw [if_neg h3]; exact good_registerFresh s id name phone h
      | none => exact good_registerFresh s id name phone h

/-- The pairing-code event keeps the registry invariant. -/
theorem good_qrEventStep (s : SysState) (id code : String) (h : goodState s) :
    goodState (qrEventStep s id code) := by
  unfold qrEventStep
  cases hf : findVendor s id with
  | none => exact h
  | some v =>
    obtain ⟨hnd, hb⟩ := h
    exact good_modify_list s.vendors id _ (fun _ => rfl) (fun u hu => hu) hnd hb

/-- The ready event keeps the registry invariant (attempts reset to 0). -/
theorem good_readyEvent (s : SysState) (id confirmed : String) (now : Nat)
    (h : goodState s) : goodState (readyEvent s id confirmed now) := by
  unfold readyEvent
  cases hf : findVendorIn (clearTimer s id).vendors id with
  | none => exact h
  | some v =>
    obtain ⟨hnd, hb⟩ := h
    exact good_modify_list s.vendors id _ (fun _ => rfl) (fun u _ => Nat.zero_le 3) hnd hb

/-- The disconnect event keeps the registry invariant. -/
theorem good_disconnectEvent (s : SysState) (id : String) (h : goodState s) :
    goodState (disconnectEvent s id) := by
  unfold disconnectEvent
  cases hf : findVendorIn (clearTimer s id).vendors id with
  | none => exact h
  | some v =>
    obtain ⟨hnd, hb⟩ := h
    exact good_modify_list s.vendors id _ (fun _ => rfl) (fun u hu => hu) hnd hb

/-- The connection-failure event keeps the registry invariant. -/
theorem good_connFailureEvent (s : SysState) (id : String) (h : goodState s) :
    goodState (connFailureEvent s id) := by
  unfold connFailureEvent
  cases hf : findVendorIn (clearTimer s id).vendors id with
  | none => exact h
  | some v =>
    apply good_cleanupV2
    obtain ⟨hnd, hb⟩ := h
    exact good_modify_list s.vendors id _ (fun _ => rfl) (fun u hu => hu) hnd hb

/-- The QR-refresh callback keeps the registry invariant (the re-inserted
vendor carries its previous attempt count). -/
theorem good_qrRefreshStep (s : SysState) (id : String) (h : goodState s) :
    goodState (qrRefreshStep s id) := by
  unfold qrRefreshStep
  cases hf : findVendor s id with
  | none => exact h
  | some v =>
    obtain ⟨hnd1, hb1⟩ := good_cleanupV2 s id h
    have hvb : v.reconnectAttempts ≤ 3 := h.2 v (findVendorIn_eq_some _ _ _ hf).1
    refine ⟨nodup_ids_setVendor _ _ hnd1, ?_⟩
    intro w hw
    rcases mem_setVendor _ _ _ hw with rfl | hmem
    · exact hvb
    · exact hb1 w hmem

/-- The retry sweep keeps the registry invariant: eligible vendors move from
attempts `< 3` to attempts `≤ 3`, everyone else is untouched. -/
theorem good_retrySweep (s : SysState) (h : goodState s) :
    goodState (retrySweepV2 s) := by
  obtain ⟨hnd, hb⟩ := h
  have hel : ((s.vendors.filter sweepEligible).map (fun v => v.id)).Nodup :=
    List.Nodup.sublist ((s.vendors.filter_sublist).map (fun v => v.id)) hnd
  have hids : (retrySweepV2 s).vendors.map (fun v => v.id) =
      s.vendors.map (fun v => v.id) := sweepRun_map_id _ s
  refine ⟨?_, ?_⟩
  · rw [hids]; exact hnd
  · intro w hw
    have hndres : ((retrySweepV2 s).vendors.map (fun v => v.id)).Nodup := by
      rw [hids]; exact hnd
    have hfind : findVendorIn (retrySweepV2 s).vendors w.id = some w :=
      findVendorIn_of_mem_nodup _ hndres w hw
    unfold retrySweepV2 at hfind
    rw [sweepRun_find _ s hel w.id] at hfind
    by_cases hmem : w.id ∈ (s.vendors.filter sweepEligible).map (fun v => v.id)
    · rw [if_pos hmem] at hfind
      cases hu : findVendorIn s.vendors w.id with
      | none => rw [hu] at hfind; cases hfind
      | some u =>
        rw [hu] at hfind
        injection hfind with hfind
        obtain ⟨x, hx, hxid⟩ := List.mem_map.mp hmem
        obtain ⟨hxmem, hxe⟩ := List.mem_filter.mp hx
        have hfx : findVendorIn s.vendors x.id = some x :=
          findVendorIn_of_mem_nodup s.vendors hnd x hxmem
        rw [hxid, hu] at hfx
        injection hfx with hfx
        unfold sweepEligible at hxe
        have hxlt : x.reconnectAttempts < 3 := (of_decide_eq_true hxe).2
        have hbump : (bumpVendor u).reconnectAttempts = u.reconnectAttempts + 1 := rfl
        rw [← hfind, hbump, hfx]
        omega
    · rw [if_neg hmem] at hfind
      exact hb w (findVendorIn_eq_some _ _ _ hfind).1

/-- Variant-1 deletion keeps the registry invariant. -/
theorem good_deleteV1 (s : SysState) (id : String) (h : goodState s) :
    goodState (deleteVendorV1 s id).1 :=
  good_cleanupV1 s id h

/-- Variant-2 deletion keeps the registry invariant. -/
theorem good_deleteV2 (s : SysState) (id : String) (h : goodState s) :
    goodState (deleteVendorV2 s id).1 := by
  unfold deleteVendorV2
  cases hf : findVendor s id with
  | none => exact h
  | some v => exact good_cleanupV2 s id h

/-- The PUT handler keeps the registry invariant. -/
theorem good_updateVendorPut (s : SysState) (id : String) (name phone : Option String)
    (h : goodState s) : goodState (updateVendorPut s id name phone).1 := by
  unfold updateVendorPut
  cases hf : findVendor s id with
  | none => exact h
  | some v =>
    show goodState (if rejectPut phone v = true then (s, UpdateResult.phoneRejected) else (saveV2 { s with vendors := setVendor s.vendors { v with name := updName name v } }, UpdateResult.ok)).1
    by_cases hrej : rejectPut phone v = true
    · rw [if_pos hrej]; exact h
    · rw [if_neg hrej]
      obtain ⟨hnd, hb⟩ := h
      refine ⟨nodup_ids_setVendor _ _ hnd, ?_⟩
      intro w hw
      rcases mem_setVendor _ _ _ hw with rfl | hmem
      · exact hb v (findVendorIn_eq_some _ _ _ hf).1
      · exact hb w hmem

/-- Every operation keeps the registry invariant. -/
theorem stepOp_good (s : SysState) (op : Op) (h : goodState s) :
    goodState (stepOp s op) := by
  cases op with
  | register id name phone => exact good_register s id name phone h
  | qrIssued id code => exact good_qrEventStep s id code h
  | ready id confirmed now => exact good_readyEvent s id confirmed now h
  | providerDisconnect id => exact good_disconnectEvent s id h
  | connFailure id => exact good_connFailureEvent s id h
  | qrRefresh id => exact good_qrRefreshStep s id h
  | retrySweep => exact good_retrySweep s h
  | deleteV1 id => exact good_deleteV1 s id h
  | deleteV2 id => exact good_deleteV2 s id h
  | updateName id name phone => exact good_updateVendorPut s id name phone h

/-- The registry invariant holds in every reachable state. -/
theorem runOps_good (ops : List Op) : goodState (runOps ops) := by
  have hinit : goodState initState :=
    ⟨List.nodup_nil, fun v hv => absurd hv (List.not_mem_nil v)⟩
  unfold runOps
  have hgen : ∀ (ops : List Op) (s : SysState), goodState s →
      goodState (ops.foldl stepOp s) := by
    intro ops
    induction ops with
    | nil => intro s hs; exact hs
    | cons op rest ih => intro s hs; exact ih _ (stepOp_good s op hs)
  exact hgen ops initState hinit

/-- C4 (amended): each execution of the retry sweep bumps exactly the vendors
that are disconnected with fewer than 3 attempts — incrementing
`reconnectAttempts` and moving them to `pending` while every other field,
including the provider generation, is kept, so no fresh Provider Adapter is
provisioned — and leaves every other vendor untouched; vendors at the retry
ceiling are never incremented, and over every operation history from the
fresh state no vendor's `reconnectAttempts` ever exceeds 3. -/
theorem c4_retry_sweep :
    (∀ (s : SysState) (id : String) (v : Vendor),
        (s.vendors.map (fun v => v.id)).Nodup →
        findVendor s id = some v →
        findVendor (retrySweepV2 s) id =
          some (if sweepEligible v = true then bumpVendor v else v)) ∧
    (∀ ops : List Op, ∀ v ∈ (runOps ops).vendors, v.reconnectAttempts ≤ 3) := by
  constructor
  · intro s id v hnd h
    exact retrySweepV2_find s hnd id v h
  · intro ops
    exact (runOps_good ops).2

/-- Witness for C4 at the concrete one-vendor disconnected state. -/
theorem c4_retry_sweep_witness :
    (c4State.vendors.map (fun v => v.id)).Nodup ∧
    findVendor c4State "a" = some c4Vendor ∧
    findVendor (retrySweepV2 c4State) "a" =
      some (if sweepEligible c4Vendor = true then bumpVendor c4Vendor else c4Vendor) := by
  have h1 : (c4State.vendors.map (fun v => v.id)).Nodup := by decide
  have h2 : findVendor c4State "a" = some c4Vendor := by decide
  exact ⟨h1, h2, c4_retry_sweep.1 c4State "a" c4Vendor h1 h2⟩

/-- C4 counterexample: the sweep moves the eligible vendor `a` to pending and
increments its counter, but the resulting record is the old record with only
those two fields changed — it still carries provider generation 5, while a
registration would have provisioned a fresh adapter (`c4State.nextGen = 6`),
and the generation counter is untouched, so no adapter was created. -/
theorem c4_no_fresh_adapter_counterexample :
    findVendor (retrySweepV2 c4State) "a" =
      some { c4Vendor with status := VStatus.pending, reconnectAttempts := 2 } ∧
    (findVendor (retrySweepV2 c4State) "a").map (fun v => v.gen) = some 5 ∧
    c4State.nextGen = 6 ∧
    (retrySweepV2 c4State).nextGen = 6 := by decide

/-- No operation ever writes `failedConnections`. -/
theorem stepOp_failed (s : SysState) (op : Op) :
    (stepOp s op).failedConnections = s.failedConnections := by
  cases op with
  | register id name phone =>
    show (registerVendor s id name phone).1.failedConnections = _
    unfold registerVendor registerFresh
    by_cases h1 : s.vendors.length ≥ MAX_CONCURRENT_CONNECTIONS
    · rw [if_pos h1]
    · rw [if_neg h1]
      by_cases h2 : name = "" ∨ phone = ""
      · rw [if_pos h2]
      · rw [if_neg h2]
        cases hf : (loadFile s.file).find? (fun p => decide (p.assignedNumber = some phone)) with
        | some existing =>
          show (if existing.status ≠ VStatus.disconnected then (s, RegisterResult.alreadyRegistered) else _).1.failedConnections = _
          by_cases h3 : existing.status ≠ VStatus.disconnected
          · rw [if_pos h3]
          · rw [if_neg h3]
            cases getAvailablePort s.usedPorts with
            | none => rfl
            | some pr => obtain ⟨p1, u1⟩ := pr; rfl
        | none =>
          cases getAvailablePort s.usedPorts with
          | none => rfl
          | some pr => obtain ⟨p1, u1⟩ := pr; rfl
  | qrIssued id code =>
    show (qrEventStep s id code).failedConnections = _
    unfold qrEventStep
    cases hf : findVendor s id with
    | none => rfl
    | some v => rfl
  | ready id confirmed now =>
    show (readyEvent s id confirmed now).failedConnections = _
    unfold readyEvent
    cases hf : findVendorIn (clearTimer s id).vendors id with
    | none => rfl
    | some v => rfl
  | providerDisconnect id =>
    show (disconnectEvent s id).failedConnections = _
    unfold disconnectEvent
    cases hf : findVendorIn (clearTimer s id).vendors id with
    | none => rfl
    | some v => rfl
  | connFailure id =>
    show (connFailureEvent s id).failedConnections = _
    unfold connFailureEvent
    cases hf : findVendorIn (clearTimer s id).vendors id with
    | none => rfl
    | some v =>
      show (cleanupVendorV2 (markDisconnectedNoSave (clearTimer s id) id) id).failedConnections = _
      unfold cleanupVendorV2
      cases hg : findVendor (markDisconnectedNoSave (clearTimer s id) id) id with
      | none => rfl
      | some u => rfl
  | qrRefresh id =>
    show (qrRefreshStep s id).failedConnections = _
    unfold qrRefreshStep
    cases hf : findVendor s id with
    | none => rfl
    | some v =>
      show (cleanupVendorV2 s id).failedConnections = _
      unfold cleanupVendorV2
      rw [hf]
      rfl
  | retrySweep =>
    show (retrySweepV2 s).failedConnections = _
    unfold retrySweepV2
    exact sweepRun_failed _ s
  | deleteV1 id =>
    show (cleanupVendorV1 s id).failedConnections = _
    unfold cleanupVendorV1
    cases hf : findVendor s id with
    | none => rfl
    | some v => rfl
  | deleteV2 id =>
    show (deleteVendorV2 s id).1.failedConnections = _
    unfold deleteVendorV2
    cases hf : findVendor s id with
    | none => rfl
    | some v =>
      show (saveV2 (cleanupVendorV2 s id)).failedConnections = _
      unfold cleanupVendorV2
      rw [hf]
      rfl
  | updateName id name phone =>
    show (updateVendorPut s id name phone).1.failedConnections = _
    unfold updateVendorPut
    cases hf : findVendor s id with
    | none => rfl
    | some v =>
      show (if rejectPut phone v = true then (s, UpdateResult.phoneRejected) else (saveV2 { s with vendors := setVendor s.vendors { v with name := updName name v } }, UpdateResult.ok)).1.failedConnections = _
      by_cases hrej : rejectPut phone v = true
      · rw [if_pos hrej]
      · rw [if_neg hrej]
        rfl

/-- C10: in every state reachable by any operation history from the fresh
process state — registrations, provider events (connection failures
included), cleanups, deletions, updates, QR refreshes and retry sweeps —
the `failedConnections` field reported by the health endpoint is 0: it is
initialized to 0 and no operation ever writes it. -/
theorem c10_failed_connections_zero (ops : List Op) :
    (healthMetrics (runOps ops)).failedConnections = 0 := by
  have hgen : ∀ (ops : List Op) (s : SysState),
      (ops.foldl stepOp s).failedConnections = s.failedConnections := by
    intro ops
    induction ops with
    | nil => intro s; rfl
    | cons op rest ih =>
      intro s
      rw [List.foldl_cons, ih, stepOp_failed]
  show (runOps ops).failedConnections = 0
  rw [runOps, hgen ops initState]
  rfl
